import Mathlib

/-!
Shallow embedding of the WattNode API (`src/api_nodes.py`, v2.1.1) — node
registration, job routing and payouts — and proofs about its claims.

Conventions of the embedding:
* Python dicts keyed by id strings become association lists
  `List (String × α)` with `dictGet` / `dictSet` mirroring `d[k]` reads and
  writes (update-in-place of the first binding, append when absent).
* `datetime` values become `Nat` seconds since the epoch; `isoformat`
  round-trips are dropped since the code always parses what it wrote.
  `datetime.replace(second := s)` is `replace_second`, which fails (Python
  `ValueError`) exactly when `s` is outside `0..59`.
* Network effects are inputs: the Solana RPC answer consumed by
  `verify_stake` is an `Option TxInfo` argument, and the payout transaction
  attempted by `send_node_payout` is a `PayoutOutcome` argument.  The order
  in which `complete_job` persists stores and attempts the payout is
  recorded in an explicit `Event` trace.
* `int(x * share / 100)` on a non-negative Python int is `Nat` floor
  division `x * share / 100` (exact for every payment the float arithmetic
  represents exactly).
-/

/-- Config constant: required WATT stake (`STAKE_AMOUNT = 10000`). -/
def STAKE_AMOUNT : Int := 10000

/-- Config constant: seconds before a node without heartbeat is inactive. -/
def HEARTBEAT_TIMEOUT : Nat := 120

/-- Config constant: seconds before an uncompleted job expires. -/
def JOB_TIMEOUT : Nat := 30

/-- Payment split percentage for the node. -/
def NODE_SHARE : Nat := 70

/-- Payment split percentage for the treasury. -/
def TREASURY_SHARE : Nat := 20

/-- Payment split percentage burned. -/
def BURN_SHARE : Nat := 10

/-- Lookup in an association list, mirroring Python `d.get(k)`. -/
def dictGet (k : String) : List (String × α) → Option α
  | [] => none
  | (k', v) :: rest => if k' = k then some v else dictGet k rest

/-- Write `d[k] = v`: replace the first binding of `k`, append if absent. -/
def dictSet (k : String) (v : α) : List (String × α) → List (String × α)
  | [] => [(k, v)]
  | (k', v') :: rest =>
    if k' = k then (k, v) :: rest else (k', v') :: dictSet k v rest

/-- Record stored for a registered node (`data["nodes"][node_id]`). -/
structure Node where
  wallet : String
  name : String
  capabilities : List String
  endpoint : Option String
  stake_amount : Int
  stake_tx : String
  registered_at : Nat
  last_heartbeat : Option Nat
  jobs_completed : Nat
  jobs_failed : Nat
  total_earned : Nat
  status : String
deriving DecidableEq

/-- Record stored for a job (`jobs_data["jobs"][job_id]`). -/
structure Job where
  jobType : String
  payload : String
  total_payment : Nat
  node_reward : Nat
  treasury_amount : Nat
  burn_amount : Nat
  requester_wallet : String
  status : String
  assigned_to : Option String
  claimed_at : Option Nat
  created_at : Nat
  expires_at : Nat
  result : Option String
  completed_at : Option Nat
  payout_status : Option String
  payout_tx : Option String
deriving DecidableEq

/-- The job store file (`node_jobs.json`). -/
structure JobsData where
  jobs : List (String × Job)
  pending : List String
  completed : List String
deriving DecidableEq

/-- The empty job store (`load_jobs` when the file is absent). -/
def emptyJobs : JobsData := ⟨[], [], []⟩

/-- Generic HTTP-level result of a handler: success or `(status, error)`. -/
inductive ApiResult where
  | ok
  | err (code : Nat) (msg : String)
deriving DecidableEq

/-- Embeds `is_node_active`: the node has a heartbeat younger than
`HEARTBEAT_TIMEOUT`.  A heartbeat in the future gives a negative age in
Python, which also counts as active; `Nat` truncation agrees. -/
def is_node_active (now : Nat) (node : Node) : Bool :=
  match node.last_heartbeat with
  | none => false
  | some hb => now - hb < HEARTBEAT_TIMEOUT

/-- Embeds `get_active_nodes`: status `active`, live heartbeat, and (when a
non-empty capability filter is given) capability membership. -/
def get_active_nodes (now : Nat) (nodes : List (String × Node))
    (capability : String) : List (String × Node) :=
  nodes.filter fun p =>
    p.2.status == "active" && is_node_active now p.2 &&
      (capability == "" || p.2.capabilities.contains capability)

/-- Embeds `datetime.replace(second = s)`: valid only for `s ≤ 59`
(Python raises `ValueError: second must be in 0..59` otherwise). -/
def replace_second (t : Nat) (s : Nat) : Option Nat :=
  if s ≤ 59 then some (t / 60 * 60 + s) else none

/-- Routing decision returned by `create_job`. -/
inductive CreateJobResult where
  | notRouted (reason : String)
  | routed (job_id : String) (node_reward : Nat) (active_nodes : Nat)
  | secondOutOfRange
deriving DecidableEq

/-- Embeds `create_job`.  `fresh_job_id` stands for the generated
`job_{uuid}`.  `secondOutOfRange` is the uncaught `ValueError` raised by
`now.replace(second = now.second + JOB_TIMEOUT)` when the current second of
minute is 30 or more; in that case nothing is persisted. -/
def create_job (now : Nat) (nodes : List (String × Node)) (jd : JobsData)
    (job_type : String) (payload : String) (total_payment : Nat)
    (requester_wallet : String) (fresh_job_id : String) :
    CreateJobResult × JobsData :=
  let active := get_active_nodes now nodes job_type
  if active.isEmpty then
    (.notRouted "no_active_nodes", jd)
  else
    let node_reward := total_payment * NODE_SHARE / 100
    let treasury_amount := total_payment * TREASURY_SHARE / 100
    let burn_amount := total_payment * BURN_SHARE / 100
    match replace_second now (now % 60 + JOB_TIMEOUT) with
    | none => (.secondOutOfRange, jd)
    | some expires =>
      let job : Job :=
        { jobType := job_type, payload := payload
          total_payment := total_payment, node_reward := node_reward
          treasury_amount := treasury_amount, burn_amount := burn_amount
          requester_wallet := requester_wallet, status := "pending"
          assigned_to := none, claimed_at := none
          created_at := now, expires_at := expires
          result := none, completed_at := none
          payout_status := none, payout_tx := none }
      (.routed fresh_job_id node_reward active.length,
        { jd with jobs := dictSet fresh_job_id job jd.jobs
                  pending := jd.pending ++ [fresh_job_id] })

/-- Embeds the `claim_job` handler. -/
def claim_job (now : Nat) (jd : JobsData) (job_id node_id : String) :
    ApiResult × JobsData :=
  if node_id = "" then (.err 400 "node_id required", jd)
  else
    match dictGet job_id jd.jobs with
    | none => (.err 404 "job not found", jd)
    | some job =>
      if job.status ≠ "pending" then
        (.err 409 "job status not pending", jd)
      else if (match job.assigned_to with
               | some a => a != node_id
               | none => false) then
        (.err 409 "job assigned to another node", jd)
      else
        let job1 := { job with assigned_to := some node_id
                               claimed_at := some now }
        (.ok, { jd with jobs := dictSet job_id job1 jd.jobs })

/-- Outcome of the external `send_node_payout` settlement call. -/
inductive PayoutOutcome where
  | success (tx : String)
  | failure (errMsg : String)
deriving DecidableEq

/-- Persistence / settlement effects performed by `complete_job`, in
program order: `save_jobs`, `save_nodes`, and the payout attempt. -/
inductive Event where
  | saveJobsEv (jd : JobsData)
  | saveNodesEv (nd : List (String × Node))
  | payAttempt (wallet : String) (amount : Nat)
deriving DecidableEq

/-- Everything `complete_job` produces: HTTP result, both stores after the
call, the ordered effect trace, and the reported payout status. -/
structure CompleteOutput where
  result : ApiResult
  jd : JobsData
  nd : List (String × Node)
  trace : List Event
  payoutStatus : String
deriving DecidableEq

/-- Embeds the `complete_job` handler.  `payout` is the outcome the
external settlement rail would give if attempted. -/
def complete_job (now : Nat) (payout : PayoutOutcome) (jd : JobsData)
    (nd : List (String × Node)) (job_id node_id : String)
    (result : Option String) : CompleteOutput :=
  if node_id = "" then ⟨.err 400 "node_id required", jd, nd, [], "pending"⟩
  else
    match result with
    | none => ⟨.err 400 "result required", jd, nd, [], "pending"⟩
    | some res =>
      match dictGet job_id jd.jobs with
      | none => ⟨.err 404 "job not found", jd, nd, [], "pending"⟩
      | some job =>
        if job.assigned_to ≠ some node_id then
          ⟨.err 403 "job not assigned to this node", jd, nd, [], "pending"⟩
        else if job.status = "completed" then
          ⟨.err 409 "job already completed", jd, nd, [], "pending"⟩
        else
          let job1 := { job with status := "completed"
                                 completed_at := some now
                                 result := some res }
          let jd1 : JobsData :=
            { jobs := dictSet job_id job1 jd.jobs
              pending := jd.pending.erase job_id
              completed := jd.completed ++ [job_id] }
          match dictGet node_id nd with
          | none => ⟨.ok, jd1, nd, [.saveJobsEv jd1], "pending"⟩
          | some node =>
            let node1 :=
              { node with jobs_completed := node.jobs_completed + 1
                          total_earned := node.total_earned + job1.node_reward
                          last_heartbeat := some now }
            let nd1 := dictSet node_id node1 nd
            if node.wallet ≠ "" ∧ job1.node_reward > 0 then
              match payout with
              | .success tx =>
                let job2 := { job1 with payout_status := some "paid"
                                        payout_tx := some tx }
                let jd2 := { jd1 with jobs := dictSet job_id job2 jd1.jobs }
                ⟨.ok, jd2, nd1,
                  [.saveJobsEv jd1, .saveNodesEv nd1,
                   .payAttempt node.wallet job1.node_reward,
                   .saveJobsEv jd2], "paid"⟩
              | .failure _ =>
                ⟨.ok, jd1, nd1,
                  [.saveJobsEv jd1, .saveNodesEv nd1,
                   .payAttempt node.wallet job1.node_reward], "pending"⟩
            else
              ⟨.ok, jd1, nd1, [.saveJobsEv jd1, .saveNodesEv nd1], "pending"⟩

/-- One entry of the `jobs` array returned to a polling node. -/
structure AvailableJob where
  job_id : String
  jobType : String
  payload : String
  reward : Nat
  expires_at : Nat
deriving DecidableEq

/-- One iteration of the pending-jobs loop in `get_node_jobs`: skip unknown
ids and capability mismatches, lazily expire past-deadline jobs, skip jobs
assigned to another node, otherwise collect the job. -/
def sweepStep (now : Nat) (node_id : String) (caps : List String)
    (st : JobsData × List AvailableJob) (job_id : String) :
    JobsData × List AvailableJob :=
  let jd := st.1
  match dictGet job_id jd.jobs with
  | none => st
  | some job =>
    if job.jobType ∉ caps then st
    else if now > job.expires_at then
      ({ jd with pending := jd.pending.erase job_id
                 jobs := dictSet job_id { job with status := "expired" } jd.jobs },
       st.2)
    else if (match job.assigned_to with
             | some a => a != node_id
             | none => false) then st
    else
      (jd, st.2 ++ [⟨job_id, job.jobType, job.payload, job.node_reward,
                     job.expires_at⟩])

/-- Everything `get_node_jobs` produces: HTTP result, the page of jobs, and
both stores after the call. -/
structure PollOutput where
  result : ApiResult
  jobsOut : List AvailableJob
  jd : JobsData
  nd : List (String × Node)
deriving DecidableEq

/-- Embeds the `get_node_jobs` handler: gate on stored status `active`
only, sweep the pending list (iterating over a snapshot of it), return at
most 5 jobs, and stamp the polling node's `last_heartbeat` to now. -/
def get_node_jobs (now : Nat) (nd : List (String × Node)) (jd : JobsData)
    (node_id : String) : PollOutput :=
  if node_id = "" then ⟨.err 400 "node_id required", [], jd, nd⟩
  else
    match dictGet node_id nd with
    | none => ⟨.err 404 "node not found", [], jd, nd⟩
    | some node =>
      if node.status ≠ "active" then ⟨.err 403 "node not active", [], jd, nd⟩
      else
        let swept := jd.pending.foldl (sweepStep now node_id node.capabilities)
          (jd, [])
        let nd1 := dictSet node_id { node with last_heartbeat := some now } nd
        ⟨.ok, swept.2.take 5, swept.1, nd1⟩

/-- Embeds `cancel_job`: drop the id from the pending list if present, and
set the status of the stored job — whatever its current status — to
`cancelled`. -/
def cancel_job (jd : JobsData) (job_id : String) : JobsData :=
  let jd1 := { jd with pending := if job_id ∈ jd.pending
                                  then jd.pending.erase job_id
                                  else jd.pending }
  match dictGet job_id jd1.jobs with
  | none => jd1
  | some job =>
    { jd1 with jobs := dictSet job_id { job with status := "cancelled" } jd1.jobs }

/-- Embeds the `node_heartbeat` handler. -/
def node_heartbeat (now : Nat) (nd : List (String × Node))
    (node_id : String) : ApiResult × List (String × Node) :=
  if node_id = "" then (.err 400 "node_id required", nd)
  else
    match dictGet node_id nd with
    | none => (.err 404 "node not found", nd)
    | some node =>
      (.ok, dictSet node_id { node with last_heartbeat := some now } nd)

/-- The on-chain facts about a stake transaction that `verify_stake` reads
from the RPC answer: block time and the treasury's WATT balance (raw units,
6 decimals) before and after. -/
structure TxInfo where
  blockTime : Int
  treasuryPre : Int
  treasuryPost : Int
deriving DecidableEq

/-- Verdict of `verify_stake`. -/
inductive StakeResult where
  | invalid (errMsg : String)
  | valid (amount : Int)
deriving DecidableEq

/-- Embeds `verify_stake` with the RPC lookup as an input: rejects an
absent transaction, one older than 24h, or one moving fewer than
`STAKE_AMOUNT` whole tokens (10^6 raw units each) to the treasury.  The
float comparison `(post - pre) / 1e6 < STAKE_AMOUNT` is exactly the integer
comparison used here. -/
def verify_stake (now : Int) (txLookup : Option TxInfo) : StakeResult :=
  match txLookup with
  | none => .invalid "Transaction not found"
  | some tx =>
    if now - tx.blockTime > 86400 then .invalid "Transaction too old"
    else if tx.treasuryPost - tx.treasuryPre < STAKE_AMOUNT * 1000000 then
      .invalid "Insufficient stake"
    else .valid ((tx.treasuryPost - tx.treasuryPre) / 1000000)

/-- Duplicate scan of `register_node`: walking the registry in order, each
node is first checked for a reused wallet, then for a reused stake
transaction; the first hit gives the 409 message. -/
def findRegConflict (wallet stake_tx : String) :
    List (String × Node) → Option String
  | [] => none
  | (_, n) :: rest =>
    if n.wallet = wallet then some "wallet already registered"
    else if n.stake_tx = stake_tx then some "stake_tx already used"
    else findRegConflict wallet stake_tx rest

/-- The capability whitelist of `register_node`. -/
def valid_caps : List String := ["scrape", "inference"]

/-- Embeds the `register_node` handler.  `fresh_node_id` stands for the
generated `node_{uuid}`; `txLookup` is the RPC answer for `stake_tx`. -/
def register_node (now : Nat) (nd : List (String × Node)) (wallet : String)
    (capabilities : List String) (stake_tx : String)
    (endpoint : Option String) (name : String) (txLookup : Option TxInfo)
    (fresh_node_id : String) : ApiResult × List (String × Node) :=
  if wallet = "" then (.err 400 "wallet required", nd)
  else if stake_tx = "" then (.err 400 "stake_tx required", nd)
  else if capabilities = [] then (.err 400 "capabilities required", nd)
  else if capabilities.any (fun c => !valid_caps.contains c) then
    (.err 400 "invalid capability", nd)
  else
    match findRegConflict wallet stake_tx nd with
    | some msg => (.err 409 msg, nd)
    | none =>
      match verify_stake now txLookup with
      | .invalid e => (.err 400 ("stake verification failed: " ++ e), nd)
      | .valid amount =>
        let node : Node :=
          { wallet := wallet, name := name, capabilities := capabilities
            endpoint := endpoint, stake_amount := amount, stake_tx := stake_tx
            registered_at := now, last_heartbeat := some now
            jobs_completed := 0, jobs_failed := 0, total_earned := 0
            status := "active" }
        (.ok, dictSet fresh_node_id node nd)

/-! Basic lemmas about the association-list dictionary. -/

theorem dictGet_dictSet_self (k : String) (v : α) (l : List (String × α)) :
    dictGet k (dictSet k v l) = some v := by
  induction l with
  | nil => simp [dictGet, dictSet]
  | cons p rest ih =>
    obtain ⟨k', v'⟩ := p
    by_cases h : k' = k
    · simp [dictSet, dictGet, h]
    · simp [dictSet, dictGet, h, ih]

theorem dictGet_dictSet_ne (k k' : String) (v : α) (l : List (String × α))
    (h : k ≠ k') : dictGet k' (dictSet k v l) = dictGet k' l := by
  induction l with
  | nil => simp [dictGet, dictSet, h]
  | cons p rest ih =>
    obtain ⟨k'', v''⟩ := p
    by_cases h2 : k'' = k
    · subst h2
      simp [dictSet, dictGet, h]
    · simp only [dictSet, if_neg h2]
      by_cases h3 : k'' = k'
      · simp [dictGet, h3]
      · simp [dictGet, h3, ih]

theorem mem_dictSet (k : String) (v : α) (l : List (String × α))
    (p : String × α) : p ∈ dictSet k v l → p = (k, v) ∨ p ∈ l := by
  induction l with
  | nil =>
    intro h
    simpa [dictSet] using h
  | cons q rest ih =>
    obtain ⟨k', v'⟩ := q
    intro h
    by_cases h2 : k' = k
    · simp only [dictSet, if_pos h2, List.mem_cons] at h
      rcases h with h | h
      · exact Or.inl h
      · exact Or.inr (List.mem_cons_of_mem _ h)
    · simp only [dictSet, if_neg h2, List.mem_cons] at h
      rcases h with h | h
      · exact Or.inr (h ▸ List.mem_cons_self _ _)
      · rcases ih h with h3 | h3
        · exact Or.inl h3
        · exact Or.inr (List.mem_cons_of_mem _ h3)

theorem dictGet_some_mem (k : String) (v : α) (l : List (String × α)) :
    dictGet k l = some v → (k, v) ∈ l := by
  induction l with
  | nil =>
    intro h
    simp [dictGet] at h
  | cons p rest ih =>
    obtain ⟨k', v'⟩ := p
    intro h
    by_cases h2 : k' = k
    · subst h2
      simp [dictGet] at h
      subst h
      exact List.mem_cons_self _ _
    · simp only [dictGet, if_neg h2] at h
      exact List.mem_cons_of_mem _ (ih h)

theorem dictSet_fresh_append (k : String) (v : α) (l : List (String × α))
    (h : dictGet k l = none) : dictSet k v l = l ++ [(k, v)] := by
  induction l with
  | nil => simp [dictSet]
  | cons p rest ih =>
    obtain ⟨k', v'⟩ := p
    by_cases h2 : k' = k
    · simp [dictGet, h2] at h
    · simp only [dictGet, if_neg h2] at h
      simp [dictSet, h2, ih h]

/-! Concrete fixtures used by counterexamples and witnesses. -/

/-- A registered, active, freshly heartbeaten scrape node. -/
def testNode : Node :=
  { wallet := "walletA", name := "node-a", capabilities := ["scrape"]
    endpoint := none, stake_amount := 10000, stake_tx := "txA"
    registered_at := 0, last_heartbeat := some 0
    jobs_completed := 0, jobs_failed := 0, total_earned := 0
    status := "active" }

/-- A one-node registry holding `testNode` under id `node_1`. -/
def testNodes : List (String × Node) := [("node_1", testNode)]

example : get_active_nodes 0 testNodes "scrape" = testNodes := by decide
example : (create_job 0 testNodes emptyJobs "scrape" "p" 15 "req" "job_1").1
    = .routed "job_1" 10 1 := by decide
example : (create_job 35 testNodes emptyJobs "scrape" "p" 15 "req" "job_1").1
    = .secondOutOfRange := by decide

/-- C1: the code floors each of the three shares independently
(`int(total_payment * share / 100)`), so for `total_payment = 15` the job
created by `create_job` carries shares 10 + 3 + 1 = 14, and
`node_reward + treasury_amount + burn_amount`, at 14, is not the
total_payment 15: the rounding remainder is dropped, not assigned to a
designated share. -/
theorem C1_split_loses_remainder :
    (create_job 0 testNodes emptyJobs "scrape" "url" 15 "req" "job_1").1
      = CreateJobResult.routed "job_1" 10 1 ∧
    ((dictGet "job_1"
        (create_job 0 testNodes emptyJobs "scrape" "url" 15 "req" "job_1").2.jobs).map
          fun j => (j.total_payment, j.node_reward, j.treasury_amount,
                    j.burn_amount))
      = some (15, 10, 3, 1) ∧
    10 + 3 + 1 ≠ 15 :=
  ⟨by decide, by decide, by decide⟩

/-- C9: when the eligible node set is empty, `create_job` returns
`routed = false` with reason `no_active_nodes` and leaves the job store
completely unchanged. -/
theorem C9_no_eligible_nodes_persists_nothing (now : Nat)
    (nodes : List (String × Node)) (jd : JobsData)
    (job_type payload : String) (total_payment : Nat)
    (requester fresh : String)
    (h : get_active_nodes now nodes job_type = []) :
    create_job now nodes jd job_type payload total_payment requester fresh
      = (.notRouted "no_active_nodes", jd) := by
  simp [create_job, h]

/-- Witness for C9 at a concrete empty registry. -/
theorem C9_no_eligible_nodes_persists_nothing_witness :
    get_active_nodes 0 [] "scrape" = [] ∧
    create_job 0 [] emptyJobs "scrape" "url" 100 "req" "job_1"
      = (.notRouted "no_active_nodes", emptyJobs) :=
  ⟨rfl, C9_no_eligible_nodes_persists_nothing 0 [] emptyJobs "scrape" "url"
    100 "req" "job_1" rfl⟩

/-- C10: `get_node_jobs` is gated only on the stored status being
`active` — the node's heartbeat is arbitrary here — and it writes the
polling node's `last_heartbeat` to now, after which `is_node_active`
holds. -/
theorem C10_poll_gates_on_status_and_revives (now : Nat)
    (nd : List (String × Node)) (jd : JobsData) (node_id : String)
    (node : Node) (hid : node_id ≠ "")
    (hget : dictGet node_id nd = some node)
    (hstatus : node.status = "active") :
    (get_node_jobs now nd jd node_id).result = .ok ∧
    ∃ node1, dictGet node_id (get_node_jobs now nd jd node_id).nd = some node1 ∧
      node1.last_heartbeat = some now ∧
      node1.wallet = node.wallet ∧
      is_node_active now node1 = true := by
  refine ⟨by simp [get_node_jobs, hid, hget, hstatus], ?_⟩
  refine ⟨{ node with last_heartbeat := some now }, ?_, rfl, rfl, ?_⟩
  · simp only [get_node_jobs, hid, hget, hstatus]
    simp [dictGet_dictSet_self]
  · simp [is_node_active, HEARTBEAT_TIMEOUT]

/-- Witness for C10: a node whose last heartbeat is 10^6 seconds stale is
not live, yet its poll succeeds and makes it live again. -/
theorem C10_poll_gates_on_status_and_revives_witness :
    is_node_active 1000000 testNode = false ∧
    (get_node_jobs 1000000 testNodes emptyJobs "node_1").result = .ok ∧
    ∃ node1,
      dictGet "node_1" (get_node_jobs 1000000 testNodes emptyJobs "node_1").nd
        = some node1 ∧
      node1.last_heartbeat = some 1000000 ∧
      node1.wallet = testNode.wallet ∧
      is_node_active 1000000 node1 = true :=
  ⟨by decide,
   C10_poll_gates_on_status_and_revives 1000000 testNodes emptyJobs "node_1"
     testNode (by decide) (by decide) rfl⟩

/-- C4: with a non-empty eligible set, `create_job` is total only on
wall-clock times whose second of minute is below 30: at second 30 or more
`now.replace(second = now.second + JOB_TIMEOUT)` raises `ValueError` and
nothing is routed or persisted, while below 30 it routes a pending job
whose deadline is exactly `now + JOB_TIMEOUT` seconds. -/
theorem C4_create_job_seconds_overflow (now : Nat)
    (nodes : List (String × Node)) (jd : JobsData)
    (job_type payload : String) (total_payment : Nat)
    (requester fresh : String)
    (hactive : get_active_nodes now nodes job_type ≠ []) :
    (30 ≤ now % 60 →
      create_job now nodes jd job_type payload total_payment requester fresh
        = (.secondOutOfRange, jd)) ∧
    (now % 60 < 30 →
      (create_job now nodes jd job_type payload total_payment requester
          fresh).1
        = .routed fresh (total_payment * NODE_SHARE / 100)
            (get_active_nodes now nodes job_type).length ∧
      ∃ job, dictGet fresh
          (create_job now nodes jd job_type payload total_payment requester
            fresh).2.jobs = some job ∧
        job.expires_at = now + JOB_TIMEOUT ∧ job.status = "pending") := by
  have hne : (get_active_nodes now nodes job_type).isEmpty = false := by
    cases h : get_active_nodes now nodes job_type with
    | nil => exact absurd h hactive
    | cons a l => simp
  constructor
  · intro h30
    have hgt : ¬ (now % 60 + JOB_TIMEOUT ≤ 59) := by
      unfold JOB_TIMEOUT
      omega
    simp [create_job, hne, replace_second, hgt]
  · intro h30
    have h59 : now % 60 + JOB_TIMEOUT ≤ 59 := by
      unfold JOB_TIMEOUT
      omega
    have hexp : now / 60 * 60 + (now % 60 + JOB_TIMEOUT) = now + JOB_TIMEOUT := by
      have := Nat.div_add_mod now 60
      omega
    have hc : create_job now nodes jd job_type payload total_payment requester
        fresh
        = (.routed fresh (total_payment * NODE_SHARE / 100)
             (get_active_nodes now nodes job_type).length,
           { jd with
               jobs := dictSet fresh
                 { jobType := job_type, payload := payload
                   total_payment := total_payment
                   node_reward := total_payment * NODE_SHARE / 100
                   treasury_amount := total_payment * TREASURY_SHARE / 100
                   burn_amount := total_payment * BURN_SHARE / 100
                   requester_wallet := requester, status := "pending"
                   assigned_to := none, claimed_at := none
                   created_at := now, expires_at := now + JOB_TIMEOUT
                   result := none, completed_at := none
                   payout_status := none, payout_tx := none } jd.jobs
               pending := jd.pending ++ [fresh] }) := by
      simp [create_job, hne, replace_second, h59, hexp]
    refine ⟨by rw [hc],
      ⟨{ jobType := job_type, payload := payload
         total_payment := total_payment
         node_reward := total_payment * NODE_SHARE / 100
         treasury_amount := total_payment * TREASURY_SHARE / 100
         burn_amount := total_payment * BURN_SHARE / 100
         requester_wallet := requester, status := "pending"
         assigned_to := none, claimed_at := none
         created_at := now, expires_at := now + JOB_TIMEOUT
         result := none, completed_at := none
         payout_status := none, payout_tx := none }, ?_, rfl, rfl⟩⟩
    rw [hc]
    exact dictGet_dictSet_self _ _ _

/-- Witness for C4: at seconds 35 of the minute the call fails, at
seconds 5 it routes with a 30-second deadline. -/
theorem C4_create_job_seconds_overflow_witness :
    get_active_nodes 35 testNodes "scrape" ≠ [] ∧ 30 ≤ 35 % 60 ∧
    create_job 35 testNodes emptyJobs "scrape" "url" 100 "req" "job_1"
      = (.secondOutOfRange, emptyJobs) ∧
    get_active_nodes 5 testNodes "scrape" ≠ [] ∧ 5 % 60 < 30 ∧
    ((create_job 5 testNodes emptyJobs "scrape" "url" 100 "req" "job_2").1
        = .routed "job_2" (100 * NODE_SHARE / 100)
            (get_active_nodes 5 testNodes "scrape").length ∧
      ∃ job, dictGet "job_2"
          (create_job 5 testNodes emptyJobs "scrape" "url" 100 "req"
            "job_2").2.jobs = some job ∧
        job.expires_at = 5 + JOB_TIMEOUT ∧ job.status = "pending") :=
  ⟨by decide, by decide,
   (C4_create_job_seconds_overflow 35 testNodes emptyJobs "scrape" "url" 100
      "req" "job_1" (by decide)).1 (by decide),
   by decide, by decide,
   (C4_create_job_seconds_overflow 5 testNodes emptyJobs "scrape" "url" 100
      "req" "job_2" (by decide)).2 (by decide)⟩

/-- A job record already completed by `node_1`, used to exercise
`cancel_job` on a non-pending job. -/
def completedJob : Job :=
  { jobType := "scrape", payload := "url", total_payment := 100
    node_reward := 70, treasury_amount := 20, burn_amount := 10
    requester_wallet := "req", status := "completed"
    assigned_to := some "node_1", claimed_at := some 1
    created_at := 0, expires_at := 30, result := some "data"
    completed_at := some 2, payout_status := none, payout_tx := none }

/-- C8: `cancel_job` does not guard on the pending status: called on a
store whose only job is already `completed`, it overwrites that terminal
status with `cancelled`, so a non-pending job's status is not left
unchanged. -/
theorem C8_cancel_overwrites_completed :
    completedJob.status = "completed" ∧
    ((dictGet "job_c"
        (cancel_job ⟨[("job_c", completedJob)], [], ["job_c"]⟩ "job_c").jobs).map
      Job.status) = some "cancelled" :=
  ⟨by decide, by decide⟩

/-- The job store produced by routing one 100-payment scrape job at time 0
to the one-node registry: `job_1` is pending, unassigned, deadline 30. -/
def createdJobs : JobsData :=
  (create_job 0 testNodes emptyJobs "scrape" "url" 100 "req" "job_1").2

/-- The record stored for `job_1` in `createdJobs`. -/
def createdJobRecord : Job :=
  { jobType := "scrape", payload := "url", total_payment := 100
    node_reward := 70, treasury_amount := 20, burn_amount := 10
    requester_wallet := "req", status := "pending"
    assigned_to := none, claimed_at := none
    created_at := 0, expires_at := 30, result := none
    completed_at := none, payout_status := none, payout_tx := none }

example : dictGet "job_1" createdJobs.jobs = some createdJobRecord := by decide
example : createdJobs.pending = ["job_1"] := by decide

/-- C3 counterexample: `job_1` was created at time 0 with deadline 30 and
never claimed; at time 100 — well past the deadline, and with no
available-jobs read in between — `claim_job` still succeeds, so a ClaimJob
after the deadline can succeed. -/
theorem C3_claim_succeeds_after_deadline :
    ((dictGet "job_1" createdJobs.jobs).map Job.expires_at) = some 30 ∧
    30 < 100 ∧
    (claim_job 100 createdJobs "job_1" "node_1").1 = .ok ∧
    ((dictGet "job_1" (claim_job 100 createdJobs "job_1" "node_1").2.jobs).map
      Job.assigned_to) = some (some "node_1") :=
  ⟨by decide, by decide, by decide, by decide⟩

/-- C2 counterexample: a successful claim of the pending `job_1` leaves
its status `pending` — not `claimed` — while setting its claimant, so the
claimed-status update and the claimant-iff-status invariant both fail. -/
theorem C2_claim_leaves_status_pending :
    (claim_job 5 createdJobs "job_1" "node_1").1 = .ok ∧
    ((dictGet "job_1" (claim_job 5 createdJobs "job_1" "node_1").2.jobs).map
      fun j => (j.status, j.assigned_to, j.claimed_at))
      = some ("pending", some "node_1", some 5) ∧
    ("pending" : String) ≠ "claimed" ∧ ("pending" : String) ≠ "completed" :=
  ⟨by decide, by decide, by decide, by decide⟩

/-! Machinery for the job-store invariant over the marketplace operations. -/

/-- How `create_job` can change the jobs map: not at all, or by storing one
fresh pending unassigned job. -/
theorem create_job_jobs_cases (now : Nat) (nodes : List (String × Node))
    (jd : JobsData) (t pl : String) (tp : Nat) (req fresh : String) :
    (create_job now nodes jd t pl tp req fresh).2.jobs = jd.jobs ∨
    ∃ job : Job, job.status = "pending" ∧ job.assigned_to = none ∧
      (create_job now nodes jd t pl tp req fresh).2.jobs
        = dictSet fresh job jd.jobs := by
  simp only [create_job]
  split
  · exact Or.inl rfl
  · split
    · exact Or.inl rfl
    · exact Or.inr ⟨_, rfl, rfl, rfl⟩

/-- How `claim_job` can change the jobs map: not at all, or by overwriting
one pending job with the same record carrying a claimant and a claim
stamp. -/
theorem claim_job_jobs_cases (now : Nat) (jd : JobsData)
    (job_id node_id : String) :
    (claim_job now jd job_id node_id).2.jobs = jd.jobs ∨
    ∃ job : Job, dictGet job_id jd.jobs = some job ∧
      job.status = "pending" ∧
      (claim_job now jd job_id node_id).2.jobs
        = dictSet job_id
            { job with assigned_to := some node_id
                       claimed_at := some now } jd.jobs := by
  simp only [claim_job]
  split
  · exact Or.inl rfl
  · split
    · exact Or.inl rfl
    · rename_i job hget
      split
      · exact Or.inl rfl
      · rename_i hpending
        split
        · exact Or.inl rfl
        · exact Or.inr ⟨job, hget, not_not.mp hpending, rfl⟩

/-- How `complete_job` can change the jobs map: not at all, or by writing a
completed record (claimed by the completing node) once, or twice when the
payout succeeded and was stamped onto the job. -/
theorem complete_job_jobs_cases (now : Nat) (payout : PayoutOutcome)
    (jd : JobsData) (nd : List (String × Node)) (job_id node_id : String)
    (result : Option String) :
    (complete_job now payout jd nd job_id node_id result).jd.jobs = jd.jobs ∨
    ∃ j1 j2 : Job, j1.status = "completed" ∧ j1.assigned_to = some node_id ∧
      j2.status = "completed" ∧ j2.assigned_to = some node_id ∧
      ((complete_job now payout jd nd job_id node_id result).jd.jobs
          = dictSet job_id j1 jd.jobs ∨
       (complete_job now payout jd nd job_id node_id result).jd.jobs
          = dictSet job_id j2 (dictSet job_id j1 jd.jobs)) := by
  simp only [complete_job]
  split
  · exact Or.inl rfl
  · split
    · exact Or.inl rfl
    · rename_i res
      split
      · exact Or.inl rfl
      · rename_i job hget
        split
        · exact Or.inl rfl
        · rename_i hassigned
          have ha : job.assigned_to = some node_id := not_not.mp hassigned
          split
          · exact Or.inl rfl
          · split
            · exact Or.inr
                ⟨{ job with
                      status := "completed",
                      completed_at := some now,
                      result := some res },
                 { job with
                      status := "completed",
                      completed_at := some now,
                      result := some res },
                 rfl, ha, rfl, ha, Or.inl rfl⟩
            · rename_i node hnode
              split
              · split
                · rename_i tx
                  exact Or.inr
                    ⟨{ job with
                      status := "completed",
                      completed_at := some now,
                      result := some res },
                     { job with
                      status := "completed",
                      completed_at := some now,
                      result := some res,
                      payout_status := some "paid",
                      payout_tx := some tx },
                     rfl, ha, rfl, ha, Or.inr rfl⟩
                · exact Or.inr
                    ⟨{ job with
                      status := "completed",
                      completed_at := some now,
                      result := some res },
                     { job with
                      status := "completed",
                      completed_at := some now,
                      result := some res },
                     rfl, ha, rfl, ha, Or.inl rfl⟩
              · exact Or.inr
                  ⟨{ job with
                      status := "completed",
                      completed_at := some now,
                      result := some res },
                   { job with
                      status := "completed",
                      completed_at := some now,
                      result := some res },
                   rfl, ha, rfl, ha, Or.inl rfl⟩

/-- The per-job part of the store invariant: no stored status `claimed`,
and a completed job carries a claimant. -/
def JobOk (j : Job) : Prop :=
  j.status ≠ "claimed" ∧ (j.status = "completed" → j.assigned_to ≠ none)

/-- The job-store invariant of the claims: every stored job is `JobOk`. -/
def ClaimInvariant (jd : JobsData) : Prop := ∀ p ∈ jd.jobs, JobOk p.2

/-- Job-store states reachable from the empty store via CreateJob,
ClaimJob and CompleteJob. -/
inductive JobsReachable : JobsData → Prop where
  | init : JobsReachable emptyJobs
  | create (jd : JobsData) (h : JobsReachable jd) (now : Nat)
      (nodes : List (String × Node)) (t pl : String) (tp : Nat)
      (req fresh : String) :
      JobsReachable (create_job now nodes jd t pl tp req fresh).2
  | claim (jd : JobsData) (h : JobsReachable jd) (now : Nat)
      (job_id node_id : String) :
      JobsReachable (claim_job now jd job_id node_id).2
  | complete (jd : JobsData) (h : JobsReachable jd) (now : Nat)
      (payout : PayoutOutcome) (nd : List (String × Node))
      (job_id node_id : String) (result : Option String) :
      JobsReachable (complete_job now payout jd nd job_id node_id result).jd

/-- C2 (amended): a successful claim sets `assigned_to` and stamps
`claimed_at` but does not touch the status (which stays `pending`), and in
every reachable store no job ever has status `claimed`, while a completed
job always has a claimant. -/
theorem C2_claim_sets_claimant_not_status :
    (∀ (now : Nat) (jd : JobsData) (job_id node_id : String) (job : Job),
      node_id ≠ "" → dictGet job_id jd.jobs = some job →
      job.status = "pending" → job.assigned_to = none →
      (claim_job now jd job_id node_id).1 = .ok ∧
      dictGet job_id (claim_job now jd job_id node_id).2.jobs
        = some { job with assigned_to := some node_id
                          claimed_at := some now }) ∧
    (∀ jd, JobsReachable jd → ClaimInvariant jd) := by
  constructor
  · intro now jd job_id node_id job hid hget hstatus hassigned
    have h1 : claim_job now jd job_id node_id = (.ok, { jd with jobs := dictSet job_id { job with assigned_to := some node_id, claimed_at := some now } jd.jobs }) := by
      simp [claim_job, hid, hget, hstatus, hassigned]
    rw [h1]
    exact ⟨rfl, dictGet_dictSet_self _ _ _⟩
  · intro jd h
    induction h with
    | init =>
      intro p hp
      simp [emptyJobs] at hp
    | create jd h now nodes t pl tp req fresh ih =>
      intro p hp
      rcases create_job_jobs_cases now nodes jd t pl tp req fresh with
        heq | ⟨job, hs, _, heq⟩
      · rw [heq] at hp
        exact ih p hp
      · rw [heq] at hp
        rcases mem_dictSet _ _ _ _ hp with rfl | hp2
        · exact ⟨by simp [hs], by simp [hs]⟩
        · exact ih p hp2
    | claim jd h now job_id node_id ih =>
      intro p hp
      rcases claim_job_jobs_cases now jd job_id node_id with
        heq | ⟨job, _, hs, heq⟩
      · rw [heq] at hp
        exact ih p hp
      · rw [heq] at hp
        rcases mem_dictSet _ _ _ _ hp with rfl | hp2
        · exact ⟨by simp [hs], by simp [hs]⟩
        · exact ih p hp2
    | complete jd h now payout nd job_id node_id result ih =>
      intro p hp
      rcases complete_job_jobs_cases now payout jd nd job_id node_id result
        with heq | ⟨j1, j2, hs1, ha1, hs2, ha2, heq | heq⟩
      · rw [heq] at hp
        exact ih p hp
      · rw [heq] at hp
        rcases mem_dictSet _ _ _ _ hp with rfl | hp2
        · exact ⟨by simp [hs1], fun _ => by simp [ha1]⟩
        · exact ih p hp2
      · rw [heq] at hp
        rcases mem_dictSet _ _ _ _ hp with rfl | hp2
        · exact ⟨by simp [hs2], fun _ => by simp [ha2]⟩
        · rcases mem_dictSet _ _ _ _ hp2 with rfl | hp3
          · exact ⟨by simp [hs1], fun _ => by simp [ha1]⟩
          · exact ih p hp3

/-- Witness for C2 (amended): claiming the concrete pending `job_1`, and
the invariant at the reachable empty store. -/
theorem C2_claim_sets_claimant_not_status_witness :
    ((claim_job 5 createdJobs "job_1" "node_1").1 = .ok ∧
     dictGet "job_1" (claim_job 5 createdJobs "job_1" "node_1").2.jobs
       = some { createdJobRecord with assigned_to := some "node_1"
                                      claimed_at := some 5 }) ∧
    ClaimInvariant emptyJobs :=
  ⟨C2_claim_sets_claimant_not_status.1 5 createdJobs "job_1" "node_1"
      createdJobRecord (by decide) (by decide) rfl rfl,
   C2_claim_sets_claimant_not_status.2 emptyJobs JobsReachable.init⟩

/-- Abbreviation for the completed job record `complete_job` writes. -/
def completedJobUpd (job : Job) (now : Nat) (res : String) : Job :=
  { job with status := "completed", completed_at := some now, result := some res }

/-- Abbreviation for the job store written by the first `save_jobs` call of
`complete_job`: the completed record stored, the id moved from pending to
completed. -/
def completedJdUpd (jd : JobsData) (job_id : String) (job1 : Job) : JobsData :=
  ⟨dictSet job_id job1 jd.jobs, jd.pending.erase job_id, jd.completed ++ [job_id]⟩

/-- After a `complete_job` whose preconditions hold, the call reports
success and the stored job is completed with the submitted result and the
completing claimant, whatever the settlement outcome. -/
theorem complete_job_success_final (now : Nat) (payout : PayoutOutcome)
    (jd : JobsData) (nd : List (String × Node)) (job_id node_id : String)
    (res : String) (job : Job) (hid : node_id ≠ "")
    (hget : dictGet job_id jd.jobs = some job)
    (ha : job.assigned_to = some node_id)
    (hnc : job.status ≠ "completed") :
    (complete_job now payout jd nd job_id node_id (some res)).result = .ok ∧
    ∃ jfin, dictGet job_id (complete_job now payout jd nd job_id node_id (some res)).jd.jobs = some jfin ∧
      jfin.status = "completed" ∧ jfin.assigned_to = some node_id ∧
      jfin.result = some res := by
  cases hnode : dictGet node_id nd with
  | none =>
    have hout : complete_job now payout jd nd job_id node_id (some res) = ⟨.ok, completedJdUpd jd job_id (completedJobUpd job now res), nd, [.saveJobsEv (completedJdUpd jd job_id (completedJobUpd job now res))], "pending"⟩ := by
      simp [complete_job, hid, hget, ha, hnc, hnode, completedJdUpd, completedJobUpd]
    rw [hout]
    exact ⟨rfl, completedJobUpd job now res,
      dictGet_dictSet_self _ _ _, rfl, ha, rfl⟩
  | some node =>
    by_cases hw : node.wallet ≠ "" ∧ job.node_reward > 0
    · cases payout with
      | success tx =>
        have hout : complete_job now (.success tx) jd nd job_id node_id (some res) = ⟨.ok, { completedJdUpd jd job_id (completedJobUpd job now res) with jobs := dictSet job_id { completedJobUpd job now res with payout_status := some "paid", payout_tx := some tx } (completedJdUpd jd job_id (completedJobUpd job now res)).jobs }, dictSet node_id { node with jobs_completed := node.jobs_completed + 1, total_earned := node.total_earned + job.node_reward, last_heartbeat := some now } nd, [.saveJobsEv (completedJdUpd jd job_id (completedJobUpd job now res)), .saveNodesEv (dictSet node_id { node with jobs_completed := node.jobs_completed + 1, total_earned := node.total_earned + job.node_reward, last_heartbeat := some now } nd), .payAttempt node.wallet job.node_reward, .saveJobsEv { completedJdUpd jd job_id (completedJobUpd job now res) with jobs := dictSet job_id { completedJobUpd job now res with payout_status := some "paid", payout_tx := some tx } (completedJdUpd jd job_id (completedJobUpd job now res)).jobs }], "paid"⟩ := by
          simp [complete_job, hid, hget, ha, hnc, hnode, hw, completedJdUpd, completedJobUpd]
        rw [hout]
        exact ⟨rfl, { completedJobUpd job now res with payout_status := some "paid", payout_tx := some tx },
          dictGet_dictSet_self _ _ _, rfl, ha, rfl⟩
      | failure e =>
        have hout : complete_job now (.failure e) jd nd job_id node_id (some res) = ⟨.ok, completedJdUpd jd job_id (completedJobUpd job now res), dictSet node_id { node with jobs_completed := node.jobs_completed + 1, total_earned := node.total_earned + job.node_reward, last_heartbeat := some now } nd, [.saveJobsEv (completedJdUpd jd job_id (completedJobUpd job now res)), .saveNodesEv (dictSet node_id { node with jobs_completed := node.jobs_completed + 1, total_earned := node.total_earned + job.node_reward, last_heartbeat := some now } nd), .payAttempt node.wallet job.node_reward], "pending"⟩ := by
          simp [complete_job, hid, hget, ha, hnc, hnode, hw, completedJdUpd, completedJobUpd]
        rw [hout]
        exact ⟨rfl, completedJobUpd job now res,
          dictGet_dictSet_self _ _ _, rfl, ha, rfl⟩
    · have hout : complete_job now payout jd nd job_id node_id (some res) = ⟨.ok, completedJdUpd jd job_id (completedJobUpd job now res), dictSet node_id { node with jobs_completed := node.jobs_completed + 1, total_earned := node.total_earned + job.node_reward, last_heartbeat := some now } nd, [.saveJobsEv (completedJdUpd jd job_id (completedJobUpd job now res)), .saveNodesEv (dictSet node_id { node with jobs_completed := node.jobs_completed + 1, total_earned := node.total_earned + job.node_reward, last_heartbeat := some now } nd)], "pending"⟩ := by
        simp [complete_job, hid, hget, ha, hnc, hnode, hw, completedJdUpd, completedJobUpd]
      rw [hout]
      exact ⟨rfl, completedJobUpd job now res,
        dictGet_dictSet_self _ _ _, rfl, ha, rfl⟩

/-- Abbreviation for the updated node record `complete_job` writes:
incremented completion counter, added earnings, fresh heartbeat. -/
def rewardedNodeUpd (node : Node) (now reward : Nat) : Node :=
  { node with jobs_completed := node.jobs_completed + 1, total_earned := node.total_earned + reward, last_heartbeat := some now }

/-- C5: after a successful completion, a second `complete_job` with the
same job and node returns the 409 `job already completed` conflict, leaves
the job store and the node registry (so the `jobs_completed` and
`total_earned` counters) exactly as they were, and performs no effect at
all — in particular no second payout attempt (empty trace). -/
theorem C5_complete_job_idempotent (now1 now2 : Nat)
    (p1 p2 : PayoutOutcome) (jd : JobsData) (nd : List (String × Node))
    (job_id node_id : String) (res1 res2 : String) (job : Job)
    (hid : node_id ≠ "") (hget : dictGet job_id jd.jobs = some job)
    (ha : job.assigned_to = some node_id)
    (hnc : job.status ≠ "completed") :
    (complete_job now1 p1 jd nd job_id node_id (some res1)).result = .ok ∧
    complete_job now2 p2 (complete_job now1 p1 jd nd job_id node_id (some res1)).jd (complete_job now1 p1 jd nd job_id node_id (some res1)).nd job_id node_id (some res2)
      = ⟨.err 409 "job already completed",
         (complete_job now1 p1 jd nd job_id node_id (some res1)).jd,
         (complete_job now1 p1 jd nd job_id node_id (some res1)).nd,
         [], "pending"⟩ := by
  obtain ⟨hok, jfin, hgetf, hstat, haf, -⟩ :=
    complete_job_success_final now1 p1 jd nd job_id node_id res1 job hid hget
      ha hnc
  refine ⟨hok, ?_⟩
  set out1 := complete_job now1 p1 jd nd job_id node_id (some res1) with hdef
  simp [complete_job, hid, hgetf, hstat, haf]

/-- C6: a successful `complete_job` saves the job store with the completed
record as its very first effect — before the node counters are saved and
before any settlement attempt, which follow in that order — and the final
job store holds the completed job whatever the settlement outcome. -/
theorem C6_completion_durable_before_settlement (now : Nat)
    (payout : PayoutOutcome) (jd : JobsData) (nd : List (String × Node))
    (job_id node_id : String) (res : String) (job : Job)
    (hid : node_id ≠ "") (hget : dictGet job_id jd.jobs = some job)
    (ha : job.assigned_to = some node_id)
    (hnc : job.status ≠ "completed") :
    (complete_job now payout jd nd job_id node_id (some res)).result = .ok ∧
    (∃ j1, dictGet job_id (completedJdUpd jd job_id (completedJobUpd job now res)).jobs = some j1 ∧ j1.status = "completed" ∧ j1.result = some res) ∧
    ((complete_job now payout jd nd job_id node_id (some res)).trace = [.saveJobsEv (completedJdUpd jd job_id (completedJobUpd job now res))] ∨
     (∃ nd1, (complete_job now payout jd nd job_id node_id (some res)).trace = [.saveJobsEv (completedJdUpd jd job_id (completedJobUpd job now res)), .saveNodesEv nd1]) ∨
     (∃ nd1 w amt, (complete_job now payout jd nd job_id node_id (some res)).trace = [.saveJobsEv (completedJdUpd jd job_id (completedJobUpd job now res)), .saveNodesEv nd1, .payAttempt w amt]) ∨
     (∃ nd1 w amt jd2, (complete_job now payout jd nd job_id node_id (some res)).trace = [.saveJobsEv (completedJdUpd jd job_id (completedJobUpd job now res)), .saveNodesEv nd1, .payAttempt w amt, .saveJobsEv jd2])) ∧
    (∃ jfin, dictGet job_id (complete_job now payout jd nd job_id node_id (some res)).jd.jobs = some jfin ∧ jfin.status = "completed") := by
  obtain ⟨hok, jfin, hgetf, hstat, -, -⟩ :=
    complete_job_success_final now payout jd nd job_id node_id res job hid
      hget ha hnc
  refine ⟨hok, ⟨completedJobUpd job now res, dictGet_dictSet_self _ _ _, rfl,
    rfl⟩, ?_, jfin, hgetf, hstat⟩
  cases hnode : dictGet node_id nd with
  | none =>
    left
    simp [complete_job, hid, hget, ha, hnc, hnode, completedJdUpd,
      completedJobUpd]
  | some node =>
    by_cases hw : node.wallet ≠ "" ∧ job.node_reward > 0
    · cases payout with
      | success tx =>
        right; right; right
        refine ⟨dictSet node_id (rewardedNodeUpd node now job.node_reward) nd, node.wallet, job.node_reward, { completedJdUpd jd job_id (completedJobUpd job now res) with jobs := dictSet job_id { completedJobUpd job now res with payout_status := some "paid", payout_tx := some tx } (completedJdUpd jd job_id (completedJobUpd job now res)).jobs }, ?_⟩
        simp [complete_job, hid, hget, ha, hnc, hnode, hw, completedJdUpd,
          completedJobUpd, rewardedNodeUpd]
      | failure e =>
        right; right; left
        refine ⟨dictSet node_id (rewardedNodeUpd node now job.node_reward) nd, node.wallet, job.node_reward, ?_⟩
        simp [complete_job, hid, hget, ha, hnc, hnode, hw, completedJdUpd,
          completedJobUpd, rewardedNodeUpd]
    · right; left
      refine ⟨dictSet node_id (rewardedNodeUpd node now job.node_reward) nd, ?_⟩
      simp [complete_job, hid, hget, ha, hnc, hnode, hw, completedJdUpd,
        completedJobUpd, rewardedNodeUpd]

/-- The job store after `job_1` has been claimed by `node_1` at time 5. -/
def claimedJobs : JobsData := (claim_job 5 createdJobs "job_1" "node_1").2

/-- The record stored for `job_1` in `claimedJobs`. -/
def claimedJobRecord : Job :=
  { createdJobRecord with assigned_to := some "node_1", claimed_at := some 5 }

example : dictGet "job_1" claimedJobs.jobs = some claimedJobRecord := by decide

/-- Witness for C5: completing the claimed concrete job once succeeds, and
the repeated completion call conflicts without touching either store. -/
theorem C5_complete_job_idempotent_witness :
    ("node_1" : String) ≠ "" ∧
    dictGet "job_1" claimedJobs.jobs = some claimedJobRecord ∧
    claimedJobRecord.assigned_to = some "node_1" ∧
    claimedJobRecord.status ≠ "completed" ∧
    ((complete_job 10 (.failure "no key") claimedJobs testNodes "job_1" "node_1" (some "data")).result = .ok ∧
     complete_job 11 (.failure "no key") (complete_job 10 (.failure "no key") claimedJobs testNodes "job_1" "node_1" (some "data")).jd (complete_job 10 (.failure "no key") claimedJobs testNodes "job_1" "node_1" (some "data")).nd "job_1" "node_1" (some "data2")
       = ⟨.err 409 "job already completed",
          (complete_job 10 (.failure "no key") claimedJobs testNodes "job_1" "node_1" (some "data")).jd,
          (complete_job 10 (.failure "no key") claimedJobs testNodes "job_1" "node_1" (some "data")).nd,
          [], "pending"⟩) :=
  ⟨by decide, by decide, by decide, by decide,
   C5_complete_job_idempotent 10 11 (.failure "no key") (.failure "no key")
     claimedJobs testNodes "job_1" "node_1" "data" "data2" claimedJobRecord
     (by decide) (by decide) (by decide) (by decide)⟩

/-- Witness for C6: completing the claimed concrete job with a failing
settlement rail still saves the completed job first and leaves it
completed. -/
theorem C6_completion_durable_before_settlement_witness :
    ("node_1" : String) ≠ "" ∧
    dictGet "job_1" claimedJobs.jobs = some claimedJobRecord ∧
    claimedJobRecord.assigned_to = some "node_1" ∧
    claimedJobRecord.status ≠ "completed" ∧
    ((complete_job 10 (.failure "no key") claimedJobs testNodes "job_1" "node_1" (some "data")).result = .ok ∧
     (∃ j1, dictGet "job_1" (completedJdUpd claimedJobs "job_1" (completedJobUpd claimedJobRecord 10 "data")).jobs = some j1 ∧ j1.status = "completed" ∧ j1.result = some "data") ∧
     ((complete_job 10 (.failure "no key") claimedJobs testNodes "job_1" "node_1" (some "data")).trace = [.saveJobsEv (completedJdUpd claimedJobs "job_1" (completedJobUpd claimedJobRecord 10 "data"))] ∨
      (∃ nd1, (complete_job 10 (.failure "no key") claimedJobs testNodes "job_1" "node_1" (some "data")).trace = [.saveJobsEv (completedJdUpd claimedJobs "job_1" (completedJobUpd claimedJobRecord 10 "data")), .saveNodesEv nd1]) ∨
      (∃ nd1 w amt, (complete_job 10 (.failure "no key") claimedJobs testNodes "job_1" "node_1" (some "data")).trace = [.saveJobsEv (completedJdUpd claimedJobs "job_1" (completedJobUpd claimedJobRecord 10 "data")), .saveNodesEv nd1, .payAttempt w amt]) ∨
      (∃ nd1 w amt jd2, (complete_job 10 (.failure "no key") claimedJobs testNodes "job_1" "node_1" (some "data")).trace = [.saveJobsEv (completedJdUpd claimedJobs "job_1" (completedJobUpd claimedJobRecord 10 "data")), .saveNodesEv nd1, .payAttempt w amt, .saveJobsEv jd2])) ∧
     (∃ jfin, dictGet "job_1" (complete_job 10 (.failure "no key") claimedJobs testNodes "job_1" "node_1" (some "data")).jd.jobs = some jfin ∧ jfin.status = "completed")) :=
  ⟨by decide, by decide, by decide, by decide,
   C6_completion_durable_before_settlement 10 (.failure "no key") claimedJobs
     testNodes "job_1" "node_1" "data" claimedJobRecord
     (by decide) (by decide) (by decide) (by decide)⟩

/-! Machinery for the node-registry uniqueness invariant. -/

/-- When the duplicate scan finds nothing, no stored node carries the
candidate wallet or the candidate stake transaction. -/
theorem findRegConflict_none_spec (wallet stake_tx : String) :
    ∀ nd : List (String × Node), findRegConflict wallet stake_tx nd = none →
      ∀ p ∈ nd, p.2.wallet ≠ wallet ∧ p.2.stake_tx ≠ stake_tx := by
  intro nd
  induction nd with
  | nil =>
    intro _ p hp
    simp at hp
  | cons q rest ih =>
    intro h p hp
    obtain ⟨k, n⟩ := q
    simp only [findRegConflict] at h
    by_cases hw : n.wallet = wallet
    · simp [hw] at h
    · by_cases hs : n.stake_tx = stake_tx
      · simp [hw, hs] at h
      · simp only [if_neg hw, if_neg hs] at h
        rcases List.mem_cons.mp hp with rfl | hp2
        · exact ⟨hw, hs⟩
        · exact ih h p hp2

/-- The uniqueness invariant of the registry: wallets and stake proofs are
pairwise distinct across stored nodes. -/
def RegistryUnique (nd : List (String × Node)) : Prop :=
  nd.Pairwise fun a b => a.2.wallet ≠ b.2.wallet ∧ a.2.stake_tx ≠ b.2.stake_tx

/-- Overwriting a stored node with a record carrying the same wallet and
stake transaction preserves the uniqueness invariant. -/
theorem registryUnique_dictSet (k : String) (v : Node) :
    ∀ (nd : List (String × Node)) (x : Node), dictGet k nd = some x →
      v.wallet = x.wallet → v.stake_tx = x.stake_tx →
      RegistryUnique nd → RegistryUnique (dictSet k v nd) := by
  intro nd
  induction nd with
  | nil =>
    intro x hget
    simp [dictGet] at hget
  | cons q rest ih =>
    intro x hget hw hs hu
    obtain ⟨k', n⟩ := q
    rw [RegistryUnique, List.pairwise_cons] at hu
    by_cases hk : k' = k
    · subst hk
      simp only [dictGet, eq_self_iff_true, if_true, Option.some.injEq] at hget
      subst hget
      rw [RegistryUnique]
      simp only [dictSet, eq_self_iff_true, if_true]
      rw [List.pairwise_cons]
      refine ⟨fun b hb => ?_, hu.2⟩
      have hR := hu.1 b hb
      exact ⟨by rw [hw]; exact hR.1, by rw [hs]; exact hR.2⟩
    · simp only [dictGet, if_neg hk] at hget
      rw [RegistryUnique]
      simp only [dictSet, if_neg hk]
      rw [List.pairwise_cons]
      constructor
      · intro b hb
        rcases mem_dictSet _ _ _ _ hb with rfl | hb2
        · have hmem := dictGet_some_mem _ _ _ hget
          have hR := hu.1 (k, x) hmem
          exact ⟨by rw [hw]; exact hR.1, by rw [hs]; exact hR.2⟩
        · exact hu.1 b hb2
      · exact ih x hget hw hs hu.2

/-- How `register_node` can change the registry: not at all, or — only
after the duplicate scan found no conflict — by storing one fresh node
carrying the submitted wallet and stake transaction. -/
theorem register_node_nd_cases (now : Nat) (nd : List (String × Node))
    (wallet : String) (caps : List String) (stake_tx : String)
    (endpoint : Option String) (name : String) (txLookup : Option TxInfo)
    (fresh : String) :
    (register_node now nd wallet caps stake_tx endpoint name txLookup fresh).2 = nd ∨
    (findRegConflict wallet stake_tx nd = none ∧
     ∃ node : Node, node.wallet = wallet ∧ node.stake_tx = stake_tx ∧
       (register_node now nd wallet caps stake_tx endpoint name txLookup fresh).2 = dictSet fresh node nd) := by
  simp only [register_node]
  split
  · exact Or.inl rfl
  · split
    · exact Or.inl rfl
    · split
      · exact Or.inl rfl
      · split
        · exact Or.inl rfl
        · split
          · exact Or.inl rfl
          · rename_i hfind
            split
            · exact Or.inl rfl
            · exact Or.inr ⟨hfind, _, rfl, rfl, rfl⟩

/-- How `node_heartbeat` can change the registry: not at all, or by
refreshing one stored node's heartbeat. -/
theorem node_heartbeat_nd_cases (now : Nat) (nd : List (String × Node))
    (node_id : String) :
    (node_heartbeat now nd node_id).2 = nd ∨
    ∃ node, dictGet node_id nd = some node ∧
      (node_heartbeat now nd node_id).2
        = dictSet node_id { node with last_heartbeat := some now } nd := by
  simp only [node_heartbeat]
  split
  · exact Or.inl rfl
  · split
    · exact Or.inl rfl
    · rename_i node hget
      exact Or.inr ⟨node, hget, rfl⟩

/-- How `get_node_jobs` can change the registry: not at all, or by
refreshing the polling node's heartbeat. -/
theorem get_node_jobs_nd_cases (now : Nat) (nd : List (String × Node))
    (jd : JobsData) (node_id : String) :
    (get_node_jobs now nd jd node_id).nd = nd ∨
    ∃ node, dictGet node_id nd = some node ∧
      (get_node_jobs now nd jd node_id).nd
        = dictSet node_id { node with last_heartbeat := some now } nd := by
  simp only [get_node_jobs]
  split
  · exact Or.inl rfl
  · split
    · exact Or.inl rfl
    · rename_i node hget
      split
      · exact Or.inl rfl
      · exact Or.inr ⟨node, hget, rfl⟩

/-- How `complete_job` can change the registry: not at all, or by writing
the completing node's counters and heartbeat — wallet and stake proof
untouched. -/
theorem complete_job_nd_cases (now : Nat) (payout : PayoutOutcome)
    (jd : JobsData) (nd : List (String × Node)) (job_id node_id : String)
    (result : Option String) :
    (complete_job now payout jd nd job_id node_id result).nd = nd ∨
    ∃ node r, dictGet node_id nd = some node ∧
      (complete_job now payout jd nd job_id node_id result).nd
        = dictSet node_id (rewardedNodeUpd node now r) nd := by
  simp only [complete_job]
  split
  · exact Or.inl rfl
  · split
    · exact Or.inl rfl
    · split
      · exact Or.inl rfl
      · rename_i job hget
        split
        · exact Or.inl rfl
        · split
          · exact Or.inl rfl
          · split
            · exact Or.inl rfl
            · rename_i node hnode
              split
              · split
                · exact Or.inr ⟨node, job.node_reward, hnode, rfl⟩
                · exact Or.inr ⟨node, job.node_reward, hnode, rfl⟩
              · exact Or.inr ⟨node, job.node_reward, hnode, rfl⟩

/-- Node-registry states reachable from the empty registry via Register,
Heartbeat, the jobs poll and CompleteJob (`fresh` node ids modelling the
generated uuids are assumed unused). -/
inductive RegistryReachable : List (String × Node) → Prop where
  | init : RegistryReachable []
  | register (nd : List (String × Node)) (h : RegistryReachable nd)
      (now : Nat) (wallet : String) (caps : List String) (stake_tx : String)
      (endpoint : Option String) (name : String) (txLookup : Option TxInfo)
      (fresh : String) (hfresh : dictGet fresh nd = none) :
      RegistryReachable
        (register_node now nd wallet caps stake_tx endpoint name txLookup fresh).2
  | heartbeat (nd : List (String × Node)) (h : RegistryReachable nd)
      (now : Nat) (node_id : String) :
      RegistryReachable (node_heartbeat now nd node_id).2
  | poll (nd : List (String × Node)) (h : RegistryReachable nd) (now : Nat)
      (jd : JobsData) (node_id : String) :
      RegistryReachable (get_node_jobs now nd jd node_id).nd
  | complete (nd : List (String × Node)) (h : RegistryReachable nd)
      (now : Nat) (payout : PayoutOutcome) (jd : JobsData)
      (job_id node_id : String) (result : Option String) :
      RegistryReachable (complete_job now payout jd nd job_id node_id result).nd

/-- C7: `register_node` rejects with 409 any registration whose wallet or
stake transaction is already stored; with the duplicate scan clear, it
rejects with the stake-verification 400 any stake proof that is absent,
older than 24 hours, or below the 10,000 WATT minimum; and every reachable
registry keeps wallets and stake proofs pairwise unique. -/
theorem C7_registration_unique :
    (∀ (now : Nat) (nd : List (String × Node)) (wallet : String)
       (caps : List String) (stake_tx : String) (endpoint : Option String)
       (name : String) (txLookup : Option TxInfo) (fresh : String),
      wallet ≠ "" → stake_tx ≠ "" → caps ≠ [] →
      caps.any (fun c => !valid_caps.contains c) = false →
      (∃ p ∈ nd, p.2.wallet = wallet ∨ p.2.stake_tx = stake_tx) →
      ∃ m, register_node now nd wallet caps stake_tx endpoint name txLookup fresh = (.err 409 m, nd)) ∧
    (∀ (now : Nat) (nd : List (String × Node)) (wallet : String)
       (caps : List String) (stake_tx : String) (endpoint : Option String)
       (name : String) (txLookup : Option TxInfo) (fresh : String),
      wallet ≠ "" → stake_tx ≠ "" → caps ≠ [] →
      caps.any (fun c => !valid_caps.contains c) = false →
      findRegConflict wallet stake_tx nd = none →
      (txLookup = none ∨ ∃ tx, txLookup = some tx ∧
        ((now : Int) - tx.blockTime > 86400 ∨
         tx.treasuryPost - tx.treasuryPre < STAKE_AMOUNT * 1000000)) →
      ∃ m, register_node now nd wallet caps stake_tx endpoint name txLookup fresh = (.err 400 ("stake verification failed: " ++ m), nd)) ∧
    (∀ nd, RegistryReachable nd → RegistryUnique nd) := by
  refine ⟨?_, ?_, ?_⟩
  · intro now nd wallet caps stake_tx endpoint name txLookup fresh hw hs hc
      hcv hdup
    cases hfind : findRegConflict wallet stake_tx nd with
    | none =>
      exfalso
      obtain ⟨p, hp, hor⟩ := hdup
      have hno := findRegConflict_none_spec wallet stake_tx nd hfind p hp
      rcases hor with h1 | h1
      · exact hno.1 h1
      · exact hno.2 h1
    | some m =>
      refine ⟨m, ?_⟩
      unfold register_node
      rw [if_neg hw, if_neg hs, if_neg hc, if_neg (by rw [hcv]; simp), hfind]
  · intro now nd wallet caps stake_tx endpoint name txLookup fresh hw hs hc
      hcv hfind hbad
    have hinv : ∃ m, verify_stake (now : Int) txLookup = .invalid m := by
      rcases hbad with rfl | ⟨tx, rfl, hcase⟩
      · exact ⟨"Transaction not found", rfl⟩
      · by_cases hold : (now : Int) - tx.blockTime > 86400
        · exact ⟨"Transaction too old", by simp [verify_stake, hold]⟩
        · rcases hcase with hold2 | hins
          · exact absurd hold2 hold
          · exact ⟨"Insufficient stake", by simp [verify_stake, hold, hins]⟩
    obtain ⟨m, hm⟩ := hinv
    refine ⟨m, ?_⟩
    unfold register_node
    rw [if_neg hw, if_neg hs, if_neg hc, if_neg (by rw [hcv]; simp), hfind, hm]
  · intro nd h
    induction h with
    | init => exact List.Pairwise.nil
    | register nd h now wallet caps stake_tx endpoint name txLookup fresh hfresh ih =>
      rcases register_node_nd_cases now nd wallet caps stake_tx endpoint
        name txLookup fresh with heq | ⟨hfind, node, hnw, hns, heq⟩
      · rw [heq]
        exact ih
      · rw [heq, dictSet_fresh_append _ _ _ hfresh]
        rw [RegistryUnique, List.pairwise_append]
        refine ⟨ih, by simp, ?_⟩
        intro a ha b hb
        rw [List.mem_singleton] at hb
        subst hb
        have hno := findRegConflict_none_spec wallet stake_tx nd hfind a ha
        exact ⟨by rw [hnw]; exact hno.1, by rw [hns]; exact hno.2⟩
    | heartbeat nd h now node_id ih =>
      rcases node_heartbeat_nd_cases now nd node_id with heq | ⟨node, hget, heq⟩
      · rw [heq]
        exact ih
      · rw [heq]
        exact registryUnique_dictSet _ _ nd node hget rfl rfl ih
    | poll nd h now jd node_id ih =>
      rcases get_node_jobs_nd_cases now nd jd node_id with heq | ⟨node, hget, heq⟩
      · rw [heq]
        exact ih
      · rw [heq]
        exact registryUnique_dictSet _ _ nd node hget rfl rfl ih
    | complete nd h now payout jd job_id node_id result ih =>
      rcases complete_job_nd_cases now payout jd nd job_id node_id result
        with heq | ⟨node, r, hget, heq⟩
      · rw [heq]
        exact ih
      · rw [heq]
        exact registryUnique_dictSet _ _ nd node hget rfl rfl ih

/-- Witness for C7: re-registering `walletA` conflicts with 409 and leaves
the registry unchanged, an absent stake transaction gives the
stake-verification 400 on an empty registry, and the reachable empty
registry is unique. -/
theorem C7_registration_unique_witness :
    (∃ m, register_node 0 testNodes "walletA" ["scrape"] "txB" none "n" none "node_9" = (.err 409 m, testNodes)) ∧
    (∃ m, register_node 0 [] "walletB" ["scrape"] "txB" none "n" none "node_9" = (.err 400 ("stake verification failed: " ++ m), [])) ∧
    RegistryUnique [] :=
  ⟨C7_registration_unique.1 0 testNodes "walletA" ["scrape"] "txB" none "n"
      none "node_9" (by decide) (by decide) (by decide) (by decide)
      ⟨("node_1", testNode), by decide, Or.inl rfl⟩,
   C7_registration_unique.2.1 0 [] "walletB" ["scrape"] "txB" none "n" none
      "node_9" (by decide) (by decide) (by decide) (by decide) rfl
      (Or.inl rfl),
   C7_registration_unique.2.2 [] RegistryReachable.init⟩

/-! Machinery for the lazy-expiry sweep of `get_node_jobs`. -/

/-- An iteration of the sweep on an id other than `job_id` does not change
the binding of `job_id` nor how often `job_id` occurs in the pending
list. -/
theorem sweepStep_other (now : Nat) (node_id : String) (caps : List String)
    (job_id x : String) (st : JobsData × List AvailableJob)
    (hx : x ≠ job_id) :
    dictGet job_id (sweepStep now node_id caps st x).1.jobs
      = dictGet job_id st.1.jobs ∧
    (sweepStep now node_id caps st x).1.pending.count job_id
      = st.1.pending.count job_id := by
  simp only [sweepStep]
  split
  · exact ⟨rfl, rfl⟩
  · rename_i jobx hgetx
    split
    · exact ⟨rfl, rfl⟩
    · split
      · exact ⟨dictGet_dictSet_ne _ _ _ _ hx,
          List.count_erase_of_ne (Ne.symm hx) _⟩
      · split
        · exact ⟨rfl, rfl⟩
        · exact ⟨rfl, rfl⟩

/-- Core induction for the lazy expiry sweep: folding `sweepStep` over a
worklist that contains `job_id` at least as often as the pending list does
ends with the job stored as `expired` (provided it is encountered at least
once, or already was expired) and with no `job_id` left in the pending
list. -/
theorem sweep_fold_expire (now : Nat) (node_id : String)
    (caps : List String) (job_id : String) (job : Job)
    (hcap : job.jobType ∈ caps) (hexp : now > job.expires_at) :
    ∀ (l : List String) (st : JobsData × List AvailableJob) (jcur : Job),
      dictGet job_id st.1.jobs = some jcur →
      (jcur = job ∨ jcur = { job with status := "expired" }) →
      st.1.pending.count job_id ≤ l.count job_id →
      ((job_id ∈ l ∨ jcur = { job with status := "expired" }) →
        dictGet job_id (l.foldl (sweepStep now node_id caps) st).1.jobs
          = some { job with status := "expired" }) ∧
      (l.foldl (sweepStep now node_id caps) st).1.pending.count job_id = 0 := by
  intro l
  induction l with
  | nil =>
    intro st jcur hget hj hcount
    refine ⟨?_, ?_⟩
    · intro hor
      rcases hor with h | h
      · simp at h
      · rw [h] at hget
        simpa using hget
    · simpa using Nat.le_zero.mp (by simpa using hcount)
  | cons x rest ih =>
    intro st jcur hget hj hcount
    by_cases hx : x = job_id
    · subst hx
      have htype : jcur.jobType ∈ caps := by
        rcases hj with rfl | rfl
        · exact hcap
        · exact hcap
      have hce : now > jcur.expires_at := by
        rcases hj with rfl | rfl
        · exact hexp
        · exact hexp
      have hstep : sweepStep now node_id caps st x
          = ({ st.1 with pending := st.1.pending.erase x, jobs := dictSet x { jcur with status := "expired" } st.1.jobs }, st.2) := by
        simp [sweepStep, hget, htype, hce]
      have hjexp : { jcur with status := "expired" }
          = { job with status := "expired" } := by
        rcases hj with rfl | rfl
        · rfl
        · rfl
      have hget2 : dictGet x (sweepStep now node_id caps st x).1.jobs
          = some { job with status := "expired" } := by
        rw [hstep]
        simpa [hjexp] using dictGet_dictSet_self x { jcur with status := "expired" } st.1.jobs
      have hcount2 : (sweepStep now node_id caps st x).1.pending.count x
          ≤ rest.count x := by
        rw [hstep]
        have h1 : (st.1.pending.erase x).count x = st.1.pending.count x - 1 :=
          List.count_erase_self _ _
        have h2 : (x :: rest).count x = rest.count x + 1 := by
          simp [List.count_cons]
        simp only [h1]
        omega
      have hmain := ih (sweepStep now node_id caps st x)
        { job with status := "expired" } hget2 (Or.inr rfl) hcount2
      rw [List.foldl_cons]
      exact ⟨fun _ => hmain.1 (Or.inr rfl), hmain.2⟩
    · have hoth := sweepStep_other now node_id caps job_id x st hx
      have hget2 : dictGet job_id (sweepStep now node_id caps st x).1.jobs
          = some jcur := by
        rw [hoth.1]
        exact hget
      have hcount2 : (sweepStep now node_id caps st x).1.pending.count job_id
          ≤ rest.count job_id := by
        rw [hoth.2]
        have h2 : (x :: rest).count job_id = rest.count job_id := by
          simp [List.count_cons, hx]
        omega
      have hmain := ih (sweepStep now node_id caps st x) jcur hget2 hj hcount2
      rw [List.foldl_cons]
      refine ⟨?_, hmain.2⟩
      intro hor
      rcases hor with h | h
      · rcases List.mem_cons.mp h with rfl | h2
        · exact absurd rfl hx
        · exact hmain.1 (Or.inl h2)
      · exact hmain.1 (Or.inr h)

/-- C3 (amended): a job past its deadline while unclaimed is swept to
`expired` (and out of the pending list) by the next available-jobs read of
an active node whose capabilities include the job's type; once its status
is `expired`, ClaimJob conflicts and CompleteJob refuses the unassigned
job; but until such a read happens, ClaimJob on the still-`pending` job
succeeds even after the deadline. -/
theorem C3_lazy_expiry_amended :
    (∀ (now : Nat) (nd : List (String × Node)) (jd : JobsData)
       (node_id : String) (node : Node) (job_id : String) (job : Job),
      node_id ≠ "" → dictGet node_id nd = some node →
      node.status = "active" → dictGet job_id jd.jobs = some job →
      job.jobType ∈ node.capabilities → now > job.expires_at →
      job_id ∈ jd.pending →
      dictGet job_id (get_node_jobs now nd jd node_id).jd.jobs
        = some { job with status := "expired" } ∧
      job_id ∉ (get_node_jobs now nd jd node_id).jd.pending) ∧
    (∀ (now : Nat) (jd : JobsData) (job_id node_id : String) (job : Job),
      node_id ≠ "" → dictGet job_id jd.jobs = some job →
      job.status = "expired" →
      claim_job now jd job_id node_id
        = (.err 409 "job status not pending", jd)) ∧
    (∀ (now : Nat) (payout : PayoutOutcome) (jd : JobsData)
       (nd : List (String × Node)) (job_id node_id : String) (r : String)
       (job : Job),
      node_id ≠ "" → dictGet job_id jd.jobs = some job →
      job.status = "expired" → job.assigned_to = none →
      complete_job now payout jd nd job_id node_id (some r)
        = ⟨.err 403 "job not assigned to this node", jd, nd, [], "pending"⟩) ∧
    (∀ (now : Nat) (jd : JobsData) (job_id node_id : String) (job : Job),
      node_id ≠ "" → dictGet job_id jd.jobs = some job →
      job.status = "pending" → job.assigned_to = none →
      now > job.expires_at →
      (claim_job now jd job_id node_id).1 = .ok) := by
  refine ⟨?_, ?_, ?_, ?_⟩
  · intro now nd jd node_id node job_id job hid hnode hstatus hget hcap hexp
      hmem
    have hpoll : get_node_jobs now nd jd node_id = ⟨.ok, ((jd.pending.foldl (sweepStep now node_id node.capabilities) (jd, [])).2.take 5), (jd.pending.foldl (sweepStep now node_id node.capabilities) (jd, [])).1, dictSet node_id { node with last_heartbeat := some now } nd⟩ := by
      simp [get_node_jobs, hid, hnode, hstatus]
    have hmain := sweep_fold_expire now node_id node.capabilities job_id job
      hcap hexp jd.pending (jd, []) job hget (Or.inl rfl) (le_refl _)
    rw [hpoll]
    exact ⟨hmain.1 (Or.inl hmem), List.count_eq_zero.mp hmain.2⟩
  · intro now jd job_id node_id job hid hget hstatus
    simp [claim_job, hid, hget, hstatus]
  · intro now payout jd nd job_id node_id r job hid hget hstatus hassigned
    simp [complete_job, hid, hget, hassigned]
  · intro now jd job_id node_id job hid hget hstatus hassigned hexp
    simp [claim_job, hid, hget, hstatus, hassigned]

/-- The job store after the sweep at time 100 expired the unclaimed
`job_1` (deadline 30). -/
def expiredJobs : JobsData :=
  (get_node_jobs 100 testNodes createdJobs "node_1").jd

example : dictGet "job_1" expiredJobs.jobs
    = some { createdJobRecord with status := "expired" } := by decide

/-- Witness for C3 (amended) on the concrete one-job store: the poll at
time 100 expires `job_1`; claims and completions then fail; claiming
before any poll succeeded even at time 100. -/
theorem C3_lazy_expiry_amended_witness :
    (dictGet "job_1" (get_node_jobs 100 testNodes createdJobs "node_1").jd.jobs = some { createdJobRecord with status := "expired" } ∧
     "job_1" ∉ (get_node_jobs 100 testNodes createdJobs "node_1").jd.pending) ∧
    claim_job 101 expiredJobs "job_1" "node_1"
      = (.err 409 "job status not pending", expiredJobs) ∧
    complete_job 101 (.failure "no key") expiredJobs testNodes "job_1" "node_1" (some "r")
      = ⟨.err 403 "job not assigned to this node", expiredJobs, testNodes, [], "pending"⟩ ∧
    (claim_job 100 createdJobs "job_1" "node_1").1 = .ok :=
  ⟨C3_lazy_expiry_amended.1 100 testNodes createdJobs "node_1" testNode
      "job_1" createdJobRecord (by decide) (by decide) rfl (by decide)
      (by decide) (by decide) (by decide),
   C3_lazy_expiry_amended.2.1 101 expiredJobs "job_1" "node_1"
      { createdJobRecord with status := "expired" } (by decide) (by decide)
      rfl,
   C3_lazy_expiry_amended.2.2.1 101 (.failure "no key") expiredJobs
      testNodes "job_1" "node_1" "r"
      { createdJobRecord with status := "expired" } (by decide) (by decide)
      rfl rfl,
   C3_lazy_expiry_amended.2.2.2 100 createdJobs "job_1" "node_1"
      createdJobRecord (by decide) (by decide) rfl rfl (by decide)⟩
